import Mathlib

/-!
Shallow embedding of the analyzer core of `bist_analyzer.py`
(class `BISTVolumeAnalyzer`): indicator library (OBV, VWAP, RSI),
structural analysis (swing points, local minima), harmonic pattern
matcher, the 30-point scoring engine of `analyze_single_stock`, the
volume-scan core of `analyze_stock_volume`, the fundamentals-snapshot
builder `get_fundamental_data`, and the batch orchestrator
`batch_analyze`.

Floats are modelled as rationals; a pandas `NaN` is modelled
explicitly as `Option.none` wherever the code can produce or consume
one.  `datetime.now()` is modelled as an explicit `now : ℕ` input.
-/

namespace BIST

/-- One OHLCV bar of a price/volume `Series` (`high`, `low`, `close`,
`volume` columns of the fetched dataframe); all values defined. -/
structure Bar where
  high : ℚ
  low : ℚ
  close : ℚ
  volume : ℚ
  deriving Repr, DecidableEq

/-! ## OBV — `_calculate_obv` (src/bist_analyzer.py lines 790-816) -/

/-- One step of the OBV loop body: add the bar's volume when the close
rose, subtract it when it fell, keep the total on a tie. -/
def obvStep (prevClose close volume acc : ℚ) : ℚ :=
  if close > prevClose then acc + volume
  else if close < prevClose then acc - volume
  else acc

/-- Tail of the OBV loop: `prevClose` and the running total so far. -/
def obvAux : ℚ → ℚ → List Bar → List ℚ
  | _, _, [] => []
  | prevClose, acc, b :: rest =>
      let acc' := obvStep prevClose b.close b.volume acc
      acc' :: obvAux b.close acc' rest

/-- `_calculate_obv`: the cumulative on-balance-volume series, seeded
with the first bar's volume (`i == 0` branch of the loop). -/
def obv : List Bar → List ℚ
  | [] => []
  | b :: rest => b.volume :: obvAux b.close b.volume rest

/-! ## VWAP — `_calculate_vwap` (src/bist_analyzer.py lines 716-746) -/

/-- `typical_price = (high + low + close) / 3`. -/
def typicalPrice (b : Bar) : ℚ := (b.high + b.low + b.close) / 3

/-- The trailing window `data.iloc[start_idx : i+1]` with
`start_idx = max(0, i - period + 1)`. -/
def trailingWindow (bars : List Bar) (period i : ℕ) : List Bar :=
  (bars.take (i + 1)).drop (i + 1 - period)

/-- `_calculate_vwap` at one index `i`: Σ(tp·vol)/Σ(vol) over the
trailing window; falls back to the window's last typical price when
the windowed volume sum is not positive (and to `typical_price[i]` on
an empty window, the `len(period_data) > 0` guard). -/
def vwapAt (bars : List Bar) (period i : ℕ) : ℚ :=
  let w := trailingWindow bars period i
  if h : w = [] then ((bars.map typicalPrice).getD i 0)
  else
    let volSum := (w.map Bar.volume).sum
    if volSum > 0 then ((w.map (fun b => typicalPrice b * b.volume)).sum) / volSum
    else typicalPrice (w.getLast h)

/-- `_calculate_vwap`: the VWAP value for every index of the series. -/
def vwap (bars : List Bar) (period : ℕ) : List ℚ :=
  (List.range bars.length).map (vwapAt bars period)

/-- Mean of typical price over the same trailing window (the simple
moving average the spec compares VWAP against). -/
def smaTypical (bars : List Bar) (period i : ℕ) : ℚ :=
  let w := trailingWindow bars period i
  (w.map typicalPrice).sum / w.length

/-! ## RSI

`prices.diff()` puts `NaN` at index 0; `delta.where(delta > 0, 0)`
turns it into `0` (a `NaN > 0` comparison is `False`), so the gain and
loss series are total.  The class defines `_calculate_rsi` twice:
the series version at lines 775-788 (ending in `fillna(50)`) and the
scalar version at lines 1525-1536 (returning `rsi.iloc[-1]` with no
`fillna`); the second definition shadows the first at runtime. -/

/-- `delta.where(delta > 0, 0)` at index `j`: the positive part of
`closes[j] - closes[j-1]`, and `0` at index 0. -/
def gainAt (closes : List ℚ) (j : ℕ) : ℚ :=
  if j = 0 then 0 else max (closes.getD j 0 - closes.getD (j - 1) 0) 0

/-- `(-delta).where(delta < 0, 0)` at index `j`: the positive part of
`closes[j-1] - closes[j]`, and `0` at index 0. -/
def lossAt (closes : List ℚ) (j : ℕ) : ℚ :=
  if j = 0 then 0 else max (closes.getD (j - 1) 0 - closes.getD j 0) 0

/-- `gain.rolling(window=period).mean()` at index `i` (defined only
when `period ≤ i + 1`; the caller checks that). -/
def gainAvg (closes : List ℚ) (period i : ℕ) : ℚ :=
  (((List.range' (i + 1 - period) period).map (gainAt closes)).sum) / period

/-- `loss.rolling(window=period).mean()` at index `i`. -/
def lossAvg (closes : List ℚ) (period i : ℕ) : ℚ :=
  (((List.range' (i + 1 - period) period).map (lossAt closes)).sum) / period

/-- `_calculate_rsi` as defined at lines 775-788 (series version), at
index `i`.  Where the rolling means are undefined (`i + 1 < period`)
or `rs = 0/0` is `NaN`, `fillna(50)` yields 50; where the loss mean is
0 and the gain mean positive, `rs = ∞` and `100 - 100/(1+∞) = 100`;
otherwise `100 - 100/(1 + gain/loss)`. -/
def rsiAt (closes : List ℚ) (period i : ℕ) : ℚ :=
  if i + 1 < period then 50
  else
    let g := gainAvg closes period i
    let l := lossAvg closes period i
    if l = 0 then (if g = 0 then 50 else 100)
    else 100 - 100 / (1 + g / l)

/-- `_calculate_rsi` as defined at lines 1525-1536 (scalar version,
the one Python method resolution actually binds): returns
`rsi.iloc[-1]`, which is `NaN` (`none`) when the last rolling window
is undefined or when `rs = 0/0`; returns 50 only on an empty series. -/
def rsiLast (closes : List ℚ) (period : ℕ) : Option ℚ :=
  if closes = [] then some 50
  else if closes.length < period then none
  else
    let i := closes.length - 1
    let g := gainAvg closes period i
    let l := lossAvg closes period i
    if l = 0 then (if g = 0 then none else some 100)
    else some (100 - 100 / (1 + g / l))

/-! ## Swing points and local minima — `_find_swing_points`
(lines 1216-1238) and `_find_local_minima` (lines 980-996) -/

/-- Kind tag of a swing point (`'high'` / `'low'`). -/
inductive SwingKind where
  | high
  | low
  deriving Repr, DecidableEq

/-- A detected swing point `{'index': i, 'price': p, 'type': k}`. -/
structure SwingPoint where
  index : ℕ
  price : ℚ
  kind : SwingKind
  deriving Repr, DecidableEq

/-- The candidate indices `range(window, len(prices) - window)`. -/
def swingCandidates (n window : ℕ) : List ℕ :=
  List.range' window (n - window - window)

/-- `is_high`: `prices[i] >= prices[j]` for every `j ≠ i` in the
centered window `[i-window, i+window]` (a weak maximum). -/
def isWeakHigh (prices : List ℚ) (window i : ℕ) : Bool :=
  (List.range' (i - window) (2 * window + 1)).all
    (fun j => j = i || decide (prices.getD j 0 ≤ prices.getD i 0))

/-- `is_low`: `prices[i] <= prices[j]` for every `j ≠ i` in the
centered window (a weak minimum). -/
def isWeakLow (prices : List ℚ) (window i : ℕ) : Bool :=
  (List.range' (i - window) (2 * window + 1)).all
    (fun j => j = i || decide (prices.getD i 0 ≤ prices.getD j 0))

/-- Strict maximum over the centered window (what the spec asserts the
detector tests). -/
def isStrictHigh (prices : List ℚ) (window i : ℕ) : Bool :=
  (List.range' (i - window) (2 * window + 1)).all
    (fun j => j = i || decide (prices.getD j 0 < prices.getD i 0))

/-- Strict minimum over the centered window. -/
def isStrictLow (prices : List ℚ) (window i : ℕ) : Bool :=
  (List.range' (i - window) (2 * window + 1)).all
    (fun j => j = i || decide (prices.getD i 0 < prices.getD j 0))

/-- `_find_swing_points`: every candidate index that is a weak high or
a weak low, labelled `'high'` when `is_high` holds (the `'high' if
is_high else 'low'` tie-break), `'low'` otherwise. -/
def findSwingPoints (prices : List ℚ) (window : ℕ) : List SwingPoint :=
  (swingCandidates prices.length window).filterMap fun i =>
    if isWeakHigh prices window i then
      some ⟨i, prices.getD i 0, SwingKind.high⟩
    else if isWeakLow prices window i then
      some ⟨i, prices.getD i 0, SwingKind.low⟩
    else none

/-- `_find_local_minima`: candidate indices whose value is a strict
minimum over the centered window (the loop marks `is_minimum = False`
as soon as some `series[j] <= series[i]`). -/
def findLocalMinima (series : List ℚ) (window : ℕ) : List ℕ :=
  (swingCandidates series.length window).filter (isStrictLow series window)

/-! ## Harmonic pattern matcher — `_check_gartley_pattern`,
`_check_bat_pattern`, `_check_butterfly_pattern`, `_check_crab_pattern`
(src/bist_analyzer.py lines 1240-1348).  Each receives the last five
swing-point prices `X, A, B, C, D`; tuple unpacking of any other
length raises and the `except` returns `False`. -/

/-- One leg ratio `abs(q - p) / abs(r - s)` with the code's
division-by-zero guard (`... if abs(r - s) > 0 else 0`). -/
def legRatio (num den : ℚ) : ℚ :=
  if |den| > 0 then |num| / |den| else 0

/-- `abs(x - target) <= tolerance / 100`: the code's tolerance test,
in absolute percentage points of ratio. -/
def near (x target tolerance : ℚ) : Bool :=
  decide (|x - target| ≤ tolerance / 100)

/-- The Gartley ratio test applied to the four computed leg ratios:
`AB/XA` near 0.618, `BC/AB` near 0.382 or 0.886, `CD/BC` near 1.272
or 1.618, `AD/XA` near 0.786. -/
def gartleyRatioCheck (abxa bcab cdbc adxa tolerance : ℚ) : Bool :=
  near abxa 0.618 tolerance &&
  (near bcab 0.382 tolerance || near bcab 0.886 tolerance) &&
  (near cdbc 1.272 tolerance || near cdbc 1.618 tolerance) &&
  near adxa 0.786 tolerance

/-- The Bat ratio test: `AB/XA` near 0.382 or 0.500, `AD/XA` near
0.886 (only two ratios are required). -/
def batRatioCheck (abxa adxa tolerance : ℚ) : Bool :=
  (near abxa 0.382 tolerance || near abxa 0.500 tolerance) &&
  near adxa 0.886 tolerance

/-- The Butterfly ratio test: `AB/XA` near 0.786, `AD/XA` near 1.272
or 1.618. -/
def butterflyRatioCheck (abxa adxa tolerance : ℚ) : Bool :=
  near abxa 0.786 tolerance &&
  (near adxa 1.272 tolerance || near adxa 1.618 tolerance)

/-- The Crab ratio test: `AB/XA` near 0.382 or 0.618, `AD/XA` near
1.618. -/
def crabRatioCheck (abxa adxa tolerance : ℚ) : Bool :=
  (near abxa 0.382 tolerance || near abxa 0.618 tolerance) &&
  near adxa 1.618 tolerance

/-- `_check_gartley_pattern` on the list of swing-point prices. -/
def checkGartleyPattern (points : List ℚ) (tolerance : ℚ) : Bool :=
  match points with
  | [x, a, b, c, d] =>
      gartleyRatioCheck (legRatio (b - a) (a - x)) (legRatio (c - b) (b - a))
        (legRatio (d - c) (c - b)) (legRatio (d - a) (a - x)) tolerance
  | _ => false

/-- `_check_bat_pattern` on the list of swing-point prices. -/
def checkBatPattern (points : List ℚ) (tolerance : ℚ) : Bool :=
  match points with
  | [x, a, b, _, d] =>
      batRatioCheck (legRatio (b - a) (a - x)) (legRatio (d - a) (a - x)) tolerance
  | _ => false

/-- `_check_butterfly_pattern` on the list of swing-point prices. -/
def checkButterflyPattern (points : List ℚ) (tolerance : ℚ) : Bool :=
  match points with
  | [x, a, b, _, d] =>
      butterflyRatioCheck (legRatio (b - a) (a - x)) (legRatio (d - a) (a - x)) tolerance
  | _ => false

/-- `_check_crab_pattern` on the list of swing-point prices. -/
def checkCrabPattern (points : List ℚ) (tolerance : ℚ) : Bool :=
  match points with
  | [x, a, b, _, d] =>
      crabRatioCheck (legRatio (b - a) (a - x)) (legRatio (d - a) (a - x)) tolerance
  | _ => false

/-! ## Scoring engine — `analyze_single_stock`
(src/bist_analyzer.py lines 1627-1876).  A fundamentals value the
provider could not supply is `none`; the per-criterion point rules are
the exact comparisons of the scoring section (lines 1736-1862). -/

/-- The configurable thresholds read from `scoring_params`
(lines 1641-1655), with the code's defaults.  `sma_tolerance` and
`macd_tolerance` are read but never used by the scoring section and
are omitted. -/
structure ScoringParams where
  peExcellent : ℚ := 8
  peGood : ℚ := 15
  pbExcellent : ℚ := 1
  pbGood : ℚ := 2
  roeExcellent : ℚ := 15
  roeGood : ℚ := 10
  marginExcellent : ℚ := 10
  marginGood : ℚ := 5
  debtExcellent : ℚ := 1
  debtGood : ℚ := 2
  rsiGoodMin : ℚ := 40
  rsiGoodMax : ℚ := 60
  volumeMultiplier : ℚ := 1.2
  deriving Repr, DecidableEq

/-- The fundamentals inputs of the ten fundamental criteria. -/
structure FundamentalSnapshot where
  pe : Option ℚ
  pb : Option ℚ
  evEbitda : Option ℚ
  profitMargin : Option ℚ
  revGrowth3y : Option ℚ
  niGrowth3y : Option ℚ
  roe : Option ℚ
  debtEquity : Option ℚ
  currentRatio : Option ℚ
  ocfLast : Option ℚ
  niLast : Option ℚ
  deriving Repr, DecidableEq

/-- The technical inputs of the five technical criteria (`none` models
a missing/NaN indicator value, which every comparison treats as
failing). -/
structure TechnicalSnapshot where
  currentPrice : ℚ
  sma50 : Option ℚ
  sma200 : Option ℚ
  rsi : Option ℚ
  macd : Option (ℚ × ℚ)
  volume : ℚ
  vol20 : Option ℚ
  deriving Repr, DecidableEq

/-- Criterion 1, P/E (line 1743): 2 below `pe_excellent`, 1 below
`pe_good`, else 0; `None` scores 0. -/
def pePts (p : ScoringParams) : Option ℚ → ℕ
  | none => 0
  | some pe => if pe ≤ p.peExcellent then 2 else if pe ≤ p.peGood then 1 else 0

/-- Criterion 2, P/B (line 1749): strict `<` for excellent. -/
def pbPts (p : ScoringParams) : Option ℚ → ℕ
  | none => 0
  | some pb => if pb < p.pbExcellent then 2 else if pb ≤ p.pbGood then 1 else 0

/-- Criterion 3, EV/EBITDA (line 1754): hard-coded bounds 6 and 8. -/
def evEbitdaPts : Option ℚ → ℕ
  | none => 0
  | some v => if v < 6 then 2 else if v ≤ 8 then 1 else 0

/-- `npm_pct` (lines 1760-1762): a fraction below 1 is scaled to
percent; `None` becomes 0. -/
def pctScale : Option ℚ → ℚ
  | none => 0
  | some x => if x < 1 then x * 100 else x

/-- Criterion 4, net profit margin (line 1763). -/
def npmPts (p : ScoringParams) (npm : Option ℚ) : ℕ :=
  if pctScale npm ≥ p.marginExcellent then 2
  else if pctScale npm ≥ p.marginGood then 1 else 0

/-- Criterion 5, 3-year sales growth (line 1769): hard-coded 10 / 5. -/
def sgPts (sg : Option ℚ) : ℕ :=
  if sg.getD 0 ≥ 10 then 2 else if sg.getD 0 ≥ 5 then 1 else 0

/-- Criterion 6, 3-year net profit growth (line 1775): 10 / strictly
positive. -/
def ngPts (ng : Option ℚ) : ℕ :=
  if ng.getD 0 ≥ 10 then 2 else if ng.getD 0 > 0 then 1 else 0

/-- Criterion 7, ROE (line 1784), with the same percent scaling. -/
def roePts (p : ScoringParams) (roe : Option ℚ) : ℕ :=
  if pctScale roe ≥ p.roeExcellent then 2
  else if pctScale roe ≥ p.roeGood then 1 else 0

/-- Criterion 8, debt/equity (line 1790). -/
def dePts (p : ScoringParams) : Option ℚ → ℕ
  | none => 0
  | some de => if de < p.debtExcellent then 2 else if de ≤ p.debtGood then 1 else 0

/-- Criterion 9, current ratio (line 1796): hard-coded 1.5 / 1.0,
`None` becomes 0. -/
def crPts (cr : Option ℚ) : ℕ :=
  if cr.getD 0 ≥ 1.5 then 2 else if cr.getD 0 ≥ 1 then 1 else 0

/-- Criterion 10, operating cash flow (line 1801): 2 when OCF and the
latest net income are both positive, 1 when only OCF is. -/
def ocfPts (ocf ni : Option ℚ) : ℕ :=
  match ocf with
  | none => 0
  | some o =>
      if o > 0 then
        (match ni with
         | some n => if n > 0 then 2 else 1
         | none => 1)
      else 0

/-- Sum of the ten fundamental criteria before the cap. -/
def fundamentalPointsRaw (p : ScoringParams) (f : FundamentalSnapshot) : ℕ :=
  pePts p f.pe + pbPts p f.pb + evEbitdaPts f.evEbitda + npmPts p f.profitMargin +
  sgPts f.revGrowth3y + ngPts f.niGrowth3y + roePts p f.roe + dePts p f.debtEquity +
  crPts f.currentRatio + ocfPts f.ocfLast f.niLast

/-- The cap at 20 (lines 1806-1807). -/
def fundamentalPoints (p : ScoringParams) (f : FundamentalSnapshot) : ℕ :=
  if fundamentalPointsRaw p f > 20 then 20 else fundamentalPointsRaw p f

/-- Technical: price above SMA200 (line 1815); missing/NaN SMA scores 0. -/
def p200Pts (price : ℚ) : Option ℚ → ℕ
  | none => 0
  | some s => if price > s then 2 else 0

/-- Technical: price above SMA50 (line 1823). -/
def p50Pts (price : ℚ) : Option ℚ → ℕ
  | none => 0
  | some s => if price > s then 2 else 0

/-- Technical: RSI (line 1830): 2 at or above `rsi_good_max`, 1 inside
the good band; a NaN RSI fails both comparisons. -/
def rsiPts (p : ScoringParams) : Option ℚ → ℕ
  | none => 0
  | some r =>
      if r ≥ p.rsiGoodMax then 2
      else if p.rsiGoodMin ≤ r ∧ r ≤ p.rsiGoodMax then 1 else 0

/-- Technical: MACD line above signal (line 1836). -/
def macdPts : Option (ℚ × ℚ) → ℕ
  | none => 0
  | some (line, signal) => if line > signal then 2 else 0

/-- Technical: volume above `vol20 × volume_multiplier` (line 1844). -/
def volPts (p : ScoringParams) (volume : ℚ) : Option ℚ → ℕ
  | none => 0
  | some v20 => if volume > v20 * p.volumeMultiplier then 2 else 0

/-- Sum of the five technical criteria (max 10, no explicit cap). -/
def technicalPoints (p : ScoringParams) (t : TechnicalSnapshot) : ℕ :=
  p200Pts t.currentPrice t.sma200 + p50Pts t.currentPrice t.sma50 +
  rsiPts p t.rsi + macdPts t.macd + volPts p t.volume t.vol20

/-- The recommendation tiers (lines 1853-1862). -/
def recommendationOf (total : ℕ) : String :=
  if total ≥ 20 then "Güçlü Al"
  else if total ≥ 16 then "Al"
  else if total ≥ 12 then "Tut"
  else if total ≥ 8 then "Sat"
  else "Güçlü Sat"

/-- The scoring fields of the dict returned at lines 1864-1876. -/
structure ScoreSummary where
  fundamentalPoints : ℕ
  technicalPoints : ℕ
  totalPoints : ℕ
  recommendation : String
  deriving Repr, DecidableEq

/-- The scoring section of `analyze_single_stock`
(lines 1736-1876). -/
def analyzeSingleStockScore (p : ScoringParams) (f : FundamentalSnapshot)
    (t : TechnicalSnapshot) : ScoreSummary :=
  let fp := fundamentalPoints p f
  let tp := technicalPoints p t
  { fundamentalPoints := fp
    technicalPoints := tp
    totalPoints := fp + tp
    recommendation := recommendationOf (fp + tp) }

/-! ## Volume-scan core — `analyze_stock_volume`
(src/bist_analyzer.py lines 320-714).  The fetched dataframe is a
list of bars whose `volume` cell may be `NaN` (`none`); a float
comparison against `NaN` is `False`. -/

/-- A fetched bar as `analyze_stock_volume` consumes it (only the
columns the embedded core reads). -/
structure RawBar where
  close : ℚ
  volume : Option ℚ
  deriving Repr, DecidableEq

/-- Python `a < b` on possibly-NaN floats: `False` when either side
is `NaN`. -/
def pyLt : Option ℚ → Option ℚ → Bool
  | some x, some y => decide (x < y)
  | _, _ => false

/-- Python `a <= b` on possibly-NaN floats. -/
def pyLe : Option ℚ → Option ℚ → Bool
  | some x, some y => decide (x ≤ y)
  | _, _ => false

/-- The last `n` elements of a list (`.tail(n)` / `.iloc[-n:]`). -/
def lastN (n : ℕ) (xs : List α) : List α := xs.drop (xs.length - n)

/-- NaN-propagating sum of a column slice (`pandas` rolling sums are
`NaN` when the window holds a `NaN`; `min_periods` equals the
window). -/
def optSum : List (Option ℚ) → Option ℚ :=
  List.foldr
    (fun a acc =>
      match a, acc with
      | some x, some s => some (x + s)
      | _, _ => none)
    (some 0)

/-- `rolling(window).mean()` of a full window: `NaN` on an empty
window or when any cell is `NaN`. -/
def optMean (w : List (Option ℚ)) : Option ℚ :=
  if w = [] then none else (optSum w).map (· / (w.length : ℚ))

/-- `_calculate_trend` (lines 1378-1398): counts strict rises and
falls between consecutive values ("Yükseliş" / "Düşüş" / "Yatay",
"Belirsiz" below two values). -/
def calculateTrend (values : List (Option ℚ)) : String :=
  if values.length < 2 then "Belirsiz"
  else
    let pairs := values.zip values.tail
    let increases := pairs.countP (fun ab => pyLt ab.1 ab.2)
    let decreases := pairs.countP (fun ab => pyLt ab.2 ab.1)
    if increases > decreases then "Yükseliş"
    else if decreases > increases then "Düşüş"
    else "Yatay"

/-- The parameters of the embedded volume-scan core. -/
structure VolumeParams where
  smaPeriod : ℕ
  periodsToCheck : ℕ
  deriving Repr, DecidableEq

/-- The fields of the result dict (lines 664-710) that the embedded
core produces.  The omitted indicator-snapshot fields are pure
functions of the same `(data, params)` computed by the indicator
functions above; `last_update` is the `datetime.now()` stamp. -/
structure VolumeResult where
  symbol : String
  currentVolume : ℚ
  volumeSma : ℚ
  currentPrice : ℚ
  volumeTrend : String
  volumeRatio : ℚ
  volumeProgressionCheck : Bool
  dataPoints : ℕ
  lastUpdate : ℕ
  deriving Repr, DecidableEq

/-- `VolumeResult` without the `last_update` stamp. -/
structure VolumeResultData where
  symbol : String
  currentVolume : ℚ
  volumeSma : ℚ
  currentPrice : ℚ
  volumeTrend : String
  volumeRatio : ℚ
  volumeProgressionCheck : Bool
  dataPoints : ℕ
  deriving Repr, DecidableEq

/-- Forget the timestamp field. -/
def VolumeResult.stripTime (r : VolumeResult) : VolumeResultData :=
  { symbol := r.symbol, currentVolume := r.currentVolume,
    volumeSma := r.volumeSma, currentPrice := r.currentPrice,
    volumeTrend := r.volumeTrend, volumeRatio := r.volumeRatio,
    volumeProgressionCheck := r.volumeProgressionCheck,
    dataPoints := r.dataPoints }

/-- The volume-scan core of `analyze_stock_volume`: the
data-sufficiency guard (line 395), the rolling volume SMA (line 399),
the volume-progression check and trend label (lines 438-463), the
NaN/zero-SMA guard (lines 660-662) and the result dict (lines
664-710) with `volume_ratio = current_volume / volume_sma` and
`last_update = datetime.now()` (modelled as the input `now`).
`data = none` models a failed fetch.  A `sma_period` of 0 makes
`rolling` raise, which the enclosing `except` turns into `None`;
here the empty rolling window yields `none` with the same outcome. -/
def analyzeStockVolumeCore (symbol : String) (data? : Option (List RawBar))
    (p : VolumeParams) (now : ℕ) : Option VolumeResult :=
  match data? with
  | none => none
  | some data =>
    if data.length < p.smaPeriod then none
    else
      let volumes := data.map RawBar.volume
      let volumeSma := optMean (lastN p.smaPeriod volumes)
      let currentVolume := volumes.getLastD none
      let currentPrice := (data.map RawBar.close).getLastD 0
      let required := p.periodsToCheck + 1
      let check :=
        if required ≤ data.length then
          (let lv := lastN required volumes
           (lv.zip lv.tail).all (fun ab => !(pyLe ab.2 ab.1)))
        else false
      let trend :=
        if required ≤ data.length then
          (if check then toString p.periodsToCheck ++ " Periyot Artış ✓"
           else "Artış Yok ✗")
        else if 3 ≤ data.length then calculateTrend (lastN 3 volumes)
        else "Yetersiz Veri"
      match currentVolume, volumeSma with
      | some cv, some sma =>
          if sma = 0 then none
          else some { symbol := symbol, currentVolume := cv, volumeSma := sma,
                      currentPrice := currentPrice, volumeTrend := trend,
                      volumeRatio := cv / sma, volumeProgressionCheck := check,
                      dataPoints := data.length, lastUpdate := now }
      | _, _ => none

/-! ## Batch orchestrator — `batch_analyze`
(src/bist_analyzer.py lines 1400-1433).  A provider failure either
surfaces as `analyze_stock_volume` returning `None` (its own
`except`) or as an exception the per-symbol `try/except` of the batch
loop catches; both skip the symbol and continue.  `fetch` returning
`.error` models the exception path, `.ok none` a fetch that returned
no data. -/

/-- The body of the per-symbol loop of `batch_analyze`: a caught
exception or a `None` analysis contributes nothing; a result
contributes when `volume_ratio >= min_volume_ratio` (line 1420). -/
def batchStep (fetch : String → Except Unit (Option (List RawBar)))
    (p : VolumeParams) (minVolumeRatio : ℚ) (now : ℕ) (s : String) :
    Option VolumeResult :=
  match fetch s with
  | .error _ => none
  | .ok d =>
      match analyzeStockVolumeCore s d p now with
      | none => none
      | some r => if r.volumeRatio ≥ minVolumeRatio then some r else none

/-- `batch_analyze`: per symbol, analyze and keep the result when it
exists and its volume ratio meets the threshold; then the stable
descending sort by volume ratio (line 1431). -/
def batchAnalyze (symbols : List String)
    (fetch : String → Except Unit (Option (List RawBar)))
    (p : VolumeParams) (minVolumeRatio : ℚ) (now : ℕ) : List VolumeResult :=
  (symbols.filterMap (batchStep fetch p minVolumeRatio now)).mergeSort
    (fun a b => b.volumeRatio ≤ a.volumeRatio)

/-! ## Fundamentals snapshot — `get_fundamental_data`
(src/bist_analyzer.py lines 1450-1523) -/

/-- The fields the code reads from `yfinance`'s `ticker.info`
(`none` = the key is absent). -/
structure YfInfo where
  trailingPE : Option ℚ
  forwardPE : Option ℚ
  priceToBook : Option ℚ
  marketCap : Option ℚ
  returnOnEquity : Option ℚ
  debtToEquity : Option ℚ
  revenueGrowth : Option ℚ
  profitMargins : Option ℚ
  dividendYield : Option ℚ
  deriving Repr, DecidableEq

/-- Python `a or b` on optional numbers: a missing or zero (falsy)
left operand yields the right one. -/
def pyOr (a b : Option ℚ) : Option ℚ :=
  match a with
  | some x => if x = 0 then b else some x
  | none => b

/-- The fundamentals snapshot `get_fundamental_data` returns (the
fields the scoring engine consumes). -/
structure FundData where
  symbol : String
  currentPrice : ℚ
  peRatio : ℚ
  pbRatio : ℚ
  marketCapEst : ℚ
  roe : ℚ
  debtEquityRatio : ℚ
  revenueGrowth : ℚ
  profitMargin : ℚ
  dividendYield : ℚ
  deriving Repr, DecidableEq

/-- `get_fundamental_data`: returns `None` when the history fetch
fails or is empty (line 1455), when the whole `yfinance` info call
raises (lines 1515-1517, `info = none`), or when P/E or P/B is
missing, zero or out of range (lines 1483-1499, "hisse atlanıyor");
the remaining ratios default to 0 via `or 0` (lines 1509-1513). -/
def getFundamentalData (symbol : String) (history : Option (List RawBar))
    (info : Option YfInfo) : Option FundData :=
  match history with
  | none => none
  | some data =>
    if data = [] then none
    else
      let currentPrice := (data.map RawBar.close).getLastD 0
      match info with
      | none => none
      | some inf =>
        match pyOr inf.trailingPE inf.forwardPE with
        | none => none
        | some pev =>
          if 0 < pev ∧ pev < 1000 then
            match inf.priceToBook with
            | none => none
            | some pbv =>
              if 0 < pbv ∧ pbv < 100 then
                some { symbol := symbol, currentPrice := currentPrice,
                       peRatio := pev, pbRatio := pbv,
                       marketCapEst :=
                         (match inf.marketCap with
                          | some m => if m > 0 then m else currentPrice * 1000000
                          | none => currentPrice * 1000000),
                       roe := inf.returnOnEquity.getD 0,
                       debtEquityRatio := inf.debtToEquity.getD 0,
                       revenueGrowth := inf.revenueGrowth.getD 0,
                       profitMargin := inf.profitMargins.getD 0,
                       dividendYield := (inf.dividendYield.getD 0) * 100 }
              else none
          else none

/-- Fundamental inputs of `analyze_single_stock` that come from the
financial statements and the second `yfinance` call rather than from
`get_fundamental_data` (lines 1680-1720). -/
structure FundExtras where
  evEbitda : Option ℚ
  revGrowth3y : Option ℚ
  niGrowth3y : Option ℚ
  currentRatio : Option ℚ
  ocfLast : Option ℚ
  niLast : Option ℚ
  deriving Repr, DecidableEq

/-- Assemble the scoring engine's fundamentals inputs from the
snapshot and the statement-derived extras (`fundamentals.get(...)`
reads at lines 1742-1789 always find the snapshot fields because
`get_fundamental_data` fills them). -/
def toFundamentalSnapshot (fd : FundData) (e : FundExtras) : FundamentalSnapshot :=
  { pe := some fd.peRatio, pb := some fd.pbRatio, evEbitda := e.evEbitda,
    profitMargin := some fd.profitMargin, revGrowth3y := e.revGrowth3y,
    niGrowth3y := e.niGrowth3y, roe := some fd.roe,
    debtEquity := some fd.debtEquityRatio, currentRatio := e.currentRatio,
    ocfLast := e.ocfLast, niLast := e.niLast }

/-- `analyze_single_stock` up to its result: `None` when
`get_fundamental_data` returns `None` (lines 1657-1660) or when the
price history is missing or shorter than 50 bars (lines 1663-1666);
otherwise the scoring summary. -/
def analyzeSingleStockOpt (p : ScoringParams) (symbol : String)
    (history : Option (List RawBar)) (info : Option YfInfo) (e : FundExtras)
    (t : TechnicalSnapshot) : Option ScoreSummary :=
  match getFundamentalData symbol history info with
  | none => none
  | some fd =>
    match history with
    | none => none
    | some data =>
        if data.length < 50 then none
        else some (analyzeSingleStockScore p (toFundamentalSnapshot fd e) t)

/-! ## Supporting lemmas -/

theorem obvAux_length (pc acc : ℚ) (l : List Bar) :
    (obvAux pc acc l).length = l.length := by
  induction l generalizing pc acc with
  | nil => rfl
  | cons b rest ih => simp [obvAux, ih]

theorem obvAux_getD_succ (pc acc : ℚ) (l : List Bar) (i : ℕ) (h : i + 1 < l.length) :
    (obvAux pc acc l).getD (i + 1) 0 =
      obvStep ((l.map Bar.close).getD i 0) ((l.map Bar.close).getD (i + 1) 0)
        ((l.map Bar.volume).getD (i + 1) 0) ((obvAux pc acc l).getD i 0) := by
  induction l generalizing pc acc i with
  | nil => simp at h
  | cons b rest ih =>
    cases i with
    | zero =>
        cases rest with
        | nil => simp at h
        | cons c rest' => simp [obvAux]
    | succ n =>
        have h' : n + 1 < rest.length := by
          simpa [Nat.succ_lt_succ_iff] using h
        simpa [obvAux] using ih b.close (obvStep pc b.close b.volume acc) n h'

theorem obvAux_chain_le (pc acc : ℚ) (l : List Bar)
    (hc : List.Chain' (· < ·) (pc :: l.map Bar.close))
    (hv : ∀ b ∈ l, 0 ≤ b.volume) :
    List.Chain' (· ≤ ·) (acc :: obvAux pc acc l) := by
  induction l generalizing pc acc with
  | nil => simp [obvAux]
  | cons b rest ih =>
    have hpc : pc < b.close := by
      simp only [List.map_cons, List.chain'_cons] at hc
      exact hc.1
    have hstep : obvStep pc b.close b.volume acc = acc + b.volume := by
      simp [obvStep, hpc]
    simp only [obvAux, List.chain'_cons]
    refine ⟨?_, ?_⟩
    · rw [hstep]
      have := hv b (by simp)
      linarith
    · exact ih b.close _ (by simpa [List.map_cons] using hc.tail)
        (fun x hx => hv x (by simp [hx]))

theorem obvAux_chain_ge (pc acc : ℚ) (l : List Bar)
    (hc : List.Chain' (· > ·) (pc :: l.map Bar.close))
    (hv : ∀ b ∈ l, 0 ≤ b.volume) :
    List.Chain' (· ≥ ·) (acc :: obvAux pc acc l) := by
  induction l generalizing pc acc with
  | nil => simp [obvAux]
  | cons b rest ih =>
    have hpc : b.close < pc := by
      simp only [List.map_cons, List.chain'_cons] at hc
      exact hc.1
    have hstep : obvStep pc b.close b.volume acc = acc - b.volume := by
      have h1 : ¬ b.close > pc := by linarith
      simp [obvStep, h1, hpc]
    simp only [obvAux, List.chain'_cons]
    refine ⟨?_, ?_⟩
    · rw [hstep]
      have := hv b (by simp)
      linarith
    · exact ih b.close _ (by simpa [List.map_cons] using hc.tail)
        (fun x hx => hv x (by simp [hx]))

/-! ## Claim theorems -/

/-- C5.  `_calculate_obv` produces a series of the same length as the
input, seeded with the first bar's volume, obeying the add/subtract/
hold recurrence on each subsequent bar; consequently OBV is
non-decreasing when closes strictly rise and non-increasing when they
strictly fall (volumes being non-negative, as the data model
requires). -/
theorem obv_C5 :
    (∀ bars : List Bar, (obv bars).length = bars.length) ∧
    (∀ (b : Bar) (rest : List Bar), (obv (b :: rest)).getD 0 0 = b.volume) ∧
    (∀ (bars : List Bar) (i : ℕ), i + 1 < bars.length →
       (obv bars).getD (i + 1) 0 =
         obvStep ((bars.map Bar.close).getD i 0) ((bars.map Bar.close).getD (i + 1) 0)
           ((bars.map Bar.volume).getD (i + 1) 0) ((obv bars).getD i 0)) ∧
    (∀ bars : List Bar, List.Chain' (· < ·) (bars.map Bar.close) →
       (∀ b ∈ bars, 0 ≤ b.volume) → List.Chain' (· ≤ ·) (obv bars)) ∧
    (∀ bars : List Bar, List.Chain' (· > ·) (bars.map Bar.close) →
       (∀ b ∈ bars, 0 ≤ b.volume) → List.Chain' (· ≥ ·) (obv bars)) := by
  refine ⟨?_, ?_, ?_, ?_, ?_⟩
  · intro bars
    cases bars with
    | nil => rfl
    | cons b rest => simp [obv, obvAux_length]
  · intro b rest
    rfl
  · intro bars i h
    cases bars with
    | nil => simp at h
    | cons b rest =>
      cases i with
      | zero =>
          cases rest with
          | nil => simp at h
          | cons c rest' => simp [obv, obvAux]
      | succ n =>
          have h' : n + 1 < rest.length := by
            simpa [Nat.succ_lt_succ_iff] using h
          simpa [obv] using obvAux_getD_succ b.close b.volume rest n h'
  · intro bars hc hv
    cases bars with
    | nil => simp [obv]
    | cons b rest =>
        exact obvAux_chain_le b.close b.volume rest
          (by simpa [List.map_cons] using hc) (fun x hx => hv x (by simp [hx]))
  · intro bars hc hv
    cases bars with
    | nil => simp [obv]
    | cons b rest =>
        exact obvAux_chain_ge b.close b.volume rest
          (by simpa [List.map_cons] using hc) (fun x hx => hv x (by simp [hx]))

theorem trailingWindow_length (bars : List Bar) (period i : ℕ)
    (hi : i < bars.length) :
    (trailingWindow bars period i).length = min period (i + 1) := by
  simp only [trailingWindow, List.length_drop, List.length_take]
  omega

theorem trailingWindow_getElem (bars : List Bar) (period i j : ℕ)
    (hi : i < bars.length) (hj : j < (trailingWindow bars period i).length) :
    (trailingWindow bars period i).get ⟨j, hj⟩ =
      bars.getD (i + 1 - period + j) ⟨0, 0, 0, 0⟩ := by
  have hl := trailingWindow_length bars period i hi
  have hb : i + 1 - period + j < bars.length := by omega
  rw [List.getD_eq_getElem bars _ hb]
  simp only [trailingWindow, List.get_eq_getElem]
  rw [List.getElem_drop, List.getElem_take]

theorem trailingWindow_getLast (bars : List Bar) (period i : ℕ)
    (hi : i < bars.length) (h : trailingWindow bars period i ≠ []) :
    (trailingWindow bars period i).getLast h = bars.getD i ⟨0, 0, 0, 0⟩ := by
  have hl := trailingWindow_length bars period i hi
  have hlen : 0 < (trailingWindow bars period i).length :=
    List.length_pos.mpr h
  rw [List.getLast_eq_getElem (trailingWindow bars period i) h]
  have := trailingWindow_getElem bars period i
    ((trailingWindow bars period i).length - 1) hi (by omega)
  simp only [List.get_eq_getElem] at this
  rw [this]
  congr 1
  omega

theorem trailingWindow_subset (bars : List Bar) (period i : ℕ) :
    ∀ b ∈ trailingWindow bars period i, b ∈ bars := by
  intro b hb
  exact List.mem_of_mem_take (List.mem_of_mem_drop hb)

/-- C5 witness: the recurrence and both monotonicity conclusions at
concrete inputs. -/
theorem obv_C5_witness :
    (obv [⟨2, 1, 1, 5⟩, ⟨3, 1, 2, 7⟩]).getD 1 0 = 12 ∧
    List.Chain' (· ≤ ·) (obv [⟨2, 1, 1, 5⟩, ⟨3, 1, 2, 7⟩]) ∧
    List.Chain' (· ≥ ·) (obv [⟨2, 1, 2, 5⟩, ⟨3, 1, 1, 7⟩]) := by
  refine ⟨?_, ?_, ?_⟩
  · have h := obv_C5.2.2.1 [⟨2, 1, 1, 5⟩, ⟨3, 1, 2, 7⟩] 0 (by decide)
    rw [h]
    norm_num [obv, obvAux, obvStep]
  · exact obv_C5.2.2.2.1 [⟨2, 1, 1, 5⟩, ⟨3, 1, 2, 7⟩]
      (by norm_num [List.chain'_cons]) (by decide)
  · exact obv_C5.2.2.2.2 [⟨2, 1, 2, 5⟩, ⟨3, 1, 1, 7⟩]
      (by norm_num [List.chain'_cons]) (by decide)

/-- C6.  `_calculate_vwap` is index-aligned with the series; at each
index it is the ratio of Σ(typical price × volume) to Σ(volume) over
the trailing window when that volume sum is positive, and the current
bar's typical price otherwise; with uniform positive volume it equals
the simple moving average of typical price over the same window. -/
theorem vwap_C6 :
    (∀ (bars : List Bar) (period : ℕ), (vwap bars period).length = bars.length) ∧
    (∀ (bars : List Bar) (period i : ℕ), i < bars.length →
       (vwap bars period).getD i 0 = vwapAt bars period i) ∧
    (∀ (bars : List Bar) (period i : ℕ), i < bars.length →
       vwapAt bars period i =
         if 0 < ((trailingWindow bars period i).map Bar.volume).sum then
           ((trailingWindow bars period i).map (fun b => typicalPrice b * b.volume)).sum /
             ((trailingWindow bars period i).map Bar.volume).sum
         else typicalPrice (bars.getD i ⟨0, 0, 0, 0⟩)) ∧
    (∀ (bars : List Bar) (period : ℕ) (v : ℚ), 0 < period → 0 < v →
       (∀ b ∈ bars, b.volume = v) →
       ∀ i, i < bars.length → vwapAt bars period i = smaTypical bars period i) := by
  have key : ∀ (bars : List Bar) (period i : ℕ), i < bars.length →
      vwapAt bars period i =
        if 0 < ((trailingWindow bars period i).map Bar.volume).sum then
          ((trailingWindow bars period i).map (fun b => typicalPrice b * b.volume)).sum /
            ((trailingWindow bars period i).map Bar.volume).sum
        else typicalPrice (bars.getD i ⟨0, 0, 0, 0⟩) := by
    intro bars period i hi
    by_cases hw : trailingWindow bars period i = []
    · rw [vwapAt, dif_pos hw, hw]
      simp only [List.map_nil, List.sum_nil, lt_irrefl, if_false]
      rw [List.getD_eq_getElem bars _ hi, List.getD_eq_getElem _ _ (by simpa using hi)]
      simp
    · rw [vwapAt, dif_neg hw]
      by_cases hpos : ((trailingWindow bars period i).map Bar.volume).sum > 0
      · rw [if_pos hpos, if_pos hpos]
      · rw [if_neg hpos, if_neg hpos]
        exact congrArg typicalPrice (trailingWindow_getLast bars period i hi hw)
  refine ⟨?_, ?_, key, ?_⟩
  · intro bars period
    simp [vwap]
  · intro bars period i hi
    have : (vwap bars period).getD i 0 =
        ((List.range bars.length).map (vwapAt bars period)).getD i 0 := rfl
    rw [this, List.getD_eq_getElem _ _ (by simpa using hi)]
    simp
  · intro bars period v hp hv huni i hi
    have hw : (trailingWindow bars period i).length = min period (i + 1) :=
      trailingWindow_length bars period i hi
    have hwv : ∀ b ∈ trailingWindow bars period i, b.volume = v :=
      fun b hb => huni b (trailingWindow_subset bars period i b hb)
    have hlen : 0 < (trailingWindow bars period i).length := by omega
    set w := trailingWindow bars period i with hwdef
    have hsumv : (w.map Bar.volume).sum = (w.length : ℚ) * v := by
      rw [List.sum_eq_card_nsmul (w.map Bar.volume) v
        (by intro x hx; obtain ⟨b, hb, rfl⟩ := List.mem_map.mp hx; exact hwv b hb)]
      simp [nsmul_eq_mul]
    have hsumtp : (w.map (fun b => typicalPrice b * b.volume)).sum =
        (w.map typicalPrice).sum * v := by
      rw [List.map_congr_left (g := fun b => typicalPrice b * v)
        (fun b hb => by rw [hwv b hb])]
      exact List.sum_map_mul_right ..
    have hpos : 0 < (w.map Bar.volume).sum := by
      rw [hsumv]
      have : (0 : ℚ) < (w.length : ℚ) := by exact_mod_cast hlen
      positivity
    rw [key bars period i hi, if_pos hpos]
    rw [← hwdef, hsumv, hsumtp]
    unfold smaTypical
    rw [← hwdef]
    rw [mul_div_mul_right _ _ (ne_of_gt hv)]

/-- C6 witness: with uniform volume 10 over two bars and window 2,
the VWAP at the last index equals the typical-price SMA there. -/
theorem vwap_C6_witness :
    vwapAt [⟨3, 1, 2, 10⟩, ⟨6, 2, 4, 10⟩] 2 1 =
      smaTypical [⟨3, 1, 2, 10⟩, ⟨6, 2, 4, 10⟩] 2 1 ∧
    smaTypical [⟨3, 1, 2, 10⟩, ⟨6, 2, 4, 10⟩] 2 1 = 3 := by
  constructor
  · exact vwap_C6.2.2.2 [⟨3, 1, 2, 10⟩, ⟨6, 2, 4, 10⟩] 2 10 (by norm_num)
      (by norm_num) (by decide) 1 (by norm_num)
  · norm_num [smaTypical, trailingWindow, typicalPrice]

/-- C2.  Each harmonic template check on five swing-point prices holds
iff every one of its required leg ratios lies within `tolerance`
percentage points of one of its admissible targets; the exact Gartley
target ratios match at tolerance 0, and perturbing any one of the four
ratios beyond the tolerance un-matches Gartley. -/
theorem harmonic_C2 :
    (∀ x a b c d tol : ℚ,
       checkGartleyPattern [x, a, b, c, d] tol = true ↔
         (near (legRatio (b - a) (a - x)) 0.618 tol = true ∧
          (near (legRatio (c - b) (b - a)) 0.382 tol = true ∨
           near (legRatio (c - b) (b - a)) 0.886 tol = true) ∧
          (near (legRatio (d - c) (c - b)) 1.272 tol = true ∨
           near (legRatio (d - c) (c - b)) 1.618 tol = true) ∧
          near (legRatio (d - a) (a - x)) 0.786 tol = true)) ∧
    (∀ x a b c d tol : ℚ,
       checkBatPattern [x, a, b, c, d] tol = true ↔
         ((near (legRatio (b - a) (a - x)) 0.382 tol = true ∨
           near (legRatio (b - a) (a - x)) 0.500 tol = true) ∧
          near (legRatio (d - a) (a - x)) 0.886 tol = true)) ∧
    (∀ x a b c d tol : ℚ,
       checkButterflyPattern [x, a, b, c, d] tol = true ↔
         (near (legRatio (b - a) (a - x)) 0.786 tol = true ∧
          (near (legRatio (d - a) (a - x)) 1.272 tol = true ∨
           near (legRatio (d - a) (a - x)) 1.618 tol = true))) ∧
    (∀ x a b c d tol : ℚ,
       checkCrabPattern [x, a, b, c, d] tol = true ↔
         ((near (legRatio (b - a) (a - x)) 0.382 tol = true ∨
           near (legRatio (b - a) (a - x)) 0.618 tol = true) ∧
          near (legRatio (d - a) (a - x)) 1.618 tol = true)) ∧
    gartleyRatioCheck 0.618 0.382 1.272 0.786 0 = true ∧
    gartleyRatioCheck 0.638 0.382 1.272 0.786 0 = false ∧
    gartleyRatioCheck 0.618 0.402 1.272 0.786 0 = false ∧
    gartleyRatioCheck 0.618 0.382 1.292 0.786 0 = false ∧
    gartleyRatioCheck 0.618 0.382 1.272 0.806 0 = false := by
  refine ⟨?_, ?_, ?_, ?_, ?_, ?_, ?_, ?_, ?_⟩
  · intro x a b c d tol
    simp [checkGartleyPattern, gartleyRatioCheck, and_assoc]
  · intro x a b c d tol
    simp [checkBatPattern, batRatioCheck]
  · intro x a b c d tol
    simp [checkButterflyPattern, butterflyRatioCheck]
  · intro x a b c d tol
    simp [checkCrabPattern, crabRatioCheck]
  · norm_num [gartleyRatioCheck, near]
  · norm_num [gartleyRatioCheck, near]
  · norm_num [gartleyRatioCheck, near]
  · norm_num [gartleyRatioCheck, near]
  · norm_num [gartleyRatioCheck, near]

/-- C3 counterexample.  On the flat series `[1, 1, 1]` with window 1,
`_find_swing_points` returns index 1 as a swing high although its
price is not the strict maximum of its centered neighborhood: the
comparisons are non-strict (`>=` / `<=`), not strict as claimed. -/
theorem swing_C3_counterexample :
    findSwingPoints [1, 1, 1] 1 = [⟨1, 1, SwingKind.high⟩] ∧
    isStrictHigh [1, 1, 1] 1 1 = false := by decide

/-- C3 amended.  `_find_swing_points` returns exactly the interior
candidates (`window ≤ i` and `i + window < len`, so no index within
`window` bars of either end) that are a weak (non-strict) maximum —
labelled high — or, failing that, a weak minimum — labelled low;
`_find_local_minima` returns exactly the interior candidates that are
a strict minimum of the centered `2·window+1` neighborhood. -/
theorem swing_C3_amended :
    (∀ (prices : List ℚ) (window : ℕ) (sp : SwingPoint),
       sp ∈ findSwingPoints prices window ↔
         (window ≤ sp.index ∧ sp.index + window < prices.length ∧
          sp.price = prices.getD sp.index 0 ∧
          ((sp.kind = SwingKind.high ∧ isWeakHigh prices window sp.index = true) ∨
           (sp.kind = SwingKind.low ∧ isWeakHigh prices window sp.index = false ∧
            isWeakLow prices window sp.index = true)))) ∧
    (∀ (series : List ℚ) (window i : ℕ),
       i ∈ findLocalMinima series window ↔
         (window ≤ i ∧ i + window < series.length ∧
          isStrictLow series window i = true)) := by
  constructor
  · intro prices window sp
    simp only [findSwingPoints, swingCandidates, List.mem_filterMap, List.mem_range'_1]
    constructor
    · rintro ⟨i, ⟨hi1, hi2⟩, hf⟩
      by_cases hh : isWeakHigh prices window i = true
      · rw [if_pos hh] at hf
        obtain rfl := Option.some.inj hf
        exact ⟨hi1, by show i + window < prices.length; omega, rfl, Or.inl ⟨rfl, hh⟩⟩
      · rw [if_neg hh] at hf
        by_cases hl : isWeakLow prices window i = true
        · rw [if_pos hl] at hf
          obtain rfl := Option.some.inj hf
          exact ⟨hi1, by show i + window < prices.length; omega, rfl,
            Or.inr ⟨rfl, by simpa using hh, hl⟩⟩
        · rw [if_neg hl] at hf
          exact absurd hf (by simp)
    · obtain ⟨idx, pr, k⟩ := sp
      rintro ⟨h1, h2, h3, h4⟩
      simp only at h1 h2 h3 h4
      refine ⟨idx, ⟨h1, by omega⟩, ?_⟩
      rcases h4 with ⟨hk, hh⟩ | ⟨hk, hh, hl⟩
      · rw [if_pos hh]
        subst h3 hk
        rfl
      · rw [if_neg (by simp [hh]), if_pos hl]
        subst h3 hk
        rfl
  · intro series window i
    simp only [findLocalMinima, swingCandidates, List.mem_filter, List.mem_range'_1]
    constructor
    · rintro ⟨⟨h1, h2⟩, h3⟩
      exact ⟨h1, by omega, h3⟩
    · rintro ⟨h1, h2, h3⟩
      exact ⟨⟨h1, by omega⟩, h3⟩

/-! ## Scoring bound lemmas -/

theorem pePts_le (p : ScoringParams) (x : Option ℚ) : pePts p x ≤ 2 := by
  cases x with
  | none => simp [pePts]
  | some v =>
      simp only [pePts]
      split_ifs <;> omega

theorem pbPts_le (p : ScoringParams) (x : Option ℚ) : pbPts p x ≤ 2 := by
  cases x with
  | none => simp [pbPts]
  | some v =>
      simp only [pbPts]
      split_ifs <;> omega

theorem evEbitdaPts_le (x : Option ℚ) : evEbitdaPts x ≤ 2 := by
  cases x with
  | none => simp [evEbitdaPts]
  | some v =>
      simp only [evEbitdaPts]
      split_ifs <;> omega

theorem npmPts_le (p : ScoringParams) (x : Option ℚ) : npmPts p x ≤ 2 := by
  simp only [npmPts]
  split_ifs <;> omega

theorem sgPts_le (x : Option ℚ) : sgPts x ≤ 2 := by
  simp only [sgPts]
  split_ifs <;> omega

theorem ngPts_le (x : Option ℚ) : ngPts x ≤ 2 := by
  simp only [ngPts]
  split_ifs <;> omega

theorem roePts_le (p : ScoringParams) (x : Option ℚ) : roePts p x ≤ 2 := by
  simp only [roePts]
  split_ifs <;> omega

theorem dePts_le (p : ScoringParams) (x : Option ℚ) : dePts p x ≤ 2 := by
  cases x with
  | none => simp [dePts]
  | some v =>
      simp only [dePts]
      split_ifs <;> omega

theorem crPts_le (x : Option ℚ) : crPts x ≤ 2 := by
  simp only [crPts]
  split_ifs <;> omega

theorem ocfPts_le (x y : Option ℚ) : ocfPts x y ≤ 2 := by
  cases x with
  | none => simp [ocfPts]
  | some o =>
      cases y with
      | none =>
          simp only [ocfPts]
          split_ifs <;> omega
      | some n =>
          simp only [ocfPts]
          split_ifs <;> omega

theorem p200Pts_le (price : ℚ) (x : Option ℚ) : p200Pts price x ≤ 2 := by
  cases x with
  | none => simp [p200Pts]
  | some v =>
      simp only [p200Pts]
      split_ifs <;> omega

theorem p50Pts_le (price : ℚ) (x : Option ℚ) : p50Pts price x ≤ 2 := by
  cases x with
  | none => simp [p50Pts]
  | some v =>
      simp only [p50Pts]
      split_ifs <;> omega

theorem rsiPts_le (p : ScoringParams) (x : Option ℚ) : rsiPts p x ≤ 2 := by
  cases x with
  | none => simp [rsiPts]
  | some v =>
      simp only [rsiPts]
      split_ifs <;> omega

theorem macdPts_le (x : Option (ℚ × ℚ)) : macdPts x ≤ 2 := by
  cases x with
  | none => simp [macdPts]
  | some v =>
      obtain ⟨l, s⟩ := v
      simp only [macdPts]
      split_ifs <;> omega

theorem volPts_le (p : ScoringParams) (volume : ℚ) (x : Option ℚ) :
    volPts p volume x ≤ 2 := by
  cases x with
  | none => simp [volPts]
  | some v =>
      simp only [volPts]
      split_ifs <;> omega

/-- A fundamentals snapshot meeting every "excellent" bound of the
default thresholds. -/
def excellentFund : FundamentalSnapshot :=
  { pe := some 5, pb := some (1 / 2), evEbitda := some 4,
    profitMargin := some (1 / 5), revGrowth3y := some 12,
    niGrowth3y := some 12, roe := some (1 / 5), debtEquity := some (1 / 2),
    currentRatio := some 2, ocfLast := some 5, niLast := some 3 }

/-- A technical snapshot meeting every technical criterion. -/
def excellentTech : TechnicalSnapshot :=
  { currentPrice := 100, sma50 := some 90, sma200 := some 80,
    rsi := some 70, macd := some (1, 1 / 2), volume := 1000,
    vol20 := some 100 }

/-- A fundamentals snapshot meeting no criterion (all inputs
missing). -/
def emptyFund : FundamentalSnapshot :=
  { pe := none, pb := none, evEbitda := none, profitMargin := none,
    revGrowth3y := none, niGrowth3y := none, roe := none,
    debtEquity := none, currentRatio := none, ocfLast := none,
    niLast := none }

/-- A technical snapshot meeting no criterion. -/
def emptyTech : TechnicalSnapshot :=
  { currentPrice := 10, sma50 := none, sma200 := none, rsi := none,
    macd := none, volume := 10, vol20 := none }

/-- C1.  The scoring engine caps fundamental points at 20, technical
points never exceed 10, the total Score lies in [0,30] and the
recommendation is the deterministic tier function of the Score; the
all-excellent snapshot scores exactly 30 mapping to "Güçlü Al"
(Strong Buy) and the all-missing snapshot scores 0 mapping to
"Güçlü Sat" (Strong Sell). -/
theorem scoring_C1 :
    (∀ (p : ScoringParams) (f : FundamentalSnapshot) (t : TechnicalSnapshot),
       (analyzeSingleStockScore p f t).fundamentalPoints ≤ 20 ∧
       (analyzeSingleStockScore p f t).technicalPoints ≤ 10 ∧
       (analyzeSingleStockScore p f t).totalPoints =
         (analyzeSingleStockScore p f t).fundamentalPoints +
           (analyzeSingleStockScore p f t).technicalPoints ∧
       (analyzeSingleStockScore p f t).totalPoints ≤ 30 ∧
       (analyzeSingleStockScore p f t).recommendation =
         recommendationOf (analyzeSingleStockScore p f t).totalPoints) ∧
    (∀ n : ℕ, recommendationOf n =
       if n ≥ 20 then "Güçlü Al"
       else if n ≥ 16 then "Al"
       else if n ≥ 12 then "Tut"
       else if n ≥ 8 then "Sat"
       else "Güçlü Sat") ∧
    (analyzeSingleStockScore {} excellentFund excellentTech).totalPoints = 30 ∧
    (analyzeSingleStockScore {} excellentFund excellentTech).recommendation
      = "Güçlü Al" ∧
    (analyzeSingleStockScore {} emptyFund emptyTech).totalPoints = 0 ∧
    (analyzeSingleStockScore {} emptyFund emptyTech).recommendation
      = "Güçlü Sat" := by
  have hfund : ∀ (p : ScoringParams) (f : FundamentalSnapshot),
      fundamentalPoints p f ≤ 20 := by
    intro p f
    unfold fundamentalPoints
    split_ifs with h
    · omega
    · omega
  have htech : ∀ (p : ScoringParams) (t : TechnicalSnapshot),
      technicalPoints p t ≤ 10 := by
    intro p t
    have h1 := p200Pts_le t.currentPrice t.sma200
    have h2 := p50Pts_le t.currentPrice t.sma50
    have h3 := rsiPts_le p t.rsi
    have h4 := macdPts_le t.macd
    have h5 := volPts_le p t.volume t.vol20
    unfold technicalPoints
    omega
  refine ⟨?_, fun n => rfl, ?_, ?_, ?_, ?_⟩
  · intro p f t
    refine ⟨hfund p f, htech p t, rfl, ?_, rfl⟩
    have := hfund p f
    have := htech p t
    simp only [analyzeSingleStockScore]
    omega
  · norm_num [analyzeSingleStockScore, fundamentalPoints, fundamentalPointsRaw,
      technicalPoints, pePts, pbPts, evEbitdaPts, npmPts, pctScale, sgPts, ngPts,
      roePts, dePts, crPts, ocfPts, p200Pts, p50Pts, rsiPts, macdPts, volPts,
      excellentFund, excellentTech]
  · norm_num [analyzeSingleStockScore, fundamentalPoints, fundamentalPointsRaw,
      technicalPoints, pePts, pbPts, evEbitdaPts, npmPts, pctScale, sgPts, ngPts,
      roePts, dePts, crPts, ocfPts, p200Pts, p50Pts, rsiPts, macdPts, volPts,
      recommendationOf, excellentFund, excellentTech]
  · norm_num [analyzeSingleStockScore, fundamentalPoints, fundamentalPointsRaw,
      technicalPoints, pePts, pbPts, evEbitdaPts, npmPts, pctScale, sgPts, ngPts,
      roePts, dePts, crPts, ocfPts, p200Pts, p50Pts, rsiPts, macdPts, volPts,
      emptyFund, emptyTech]
  · norm_num [analyzeSingleStockScore, fundamentalPoints, fundamentalPointsRaw,
      technicalPoints, pePts, pbPts, evEbitdaPts, npmPts, pctScale, sgPts, ngPts,
      roePts, dePts, crPts, ocfPts, p200Pts, p50Pts, rsiPts, macdPts, volPts,
      recommendationOf, emptyFund, emptyTech]

/-! ## RSI lemmas -/

theorem gainAt_nonneg (closes : List ℚ) (j : ℕ) : 0 ≤ gainAt closes j := by
  unfold gainAt
  split_ifs
  · exact le_refl 0
  · exact le_max_right _ _

theorem lossAt_nonneg (closes : List ℚ) (j : ℕ) : 0 ≤ lossAt closes j := by
  unfold lossAt
  split_ifs
  · exact le_refl 0
  · exact le_max_right _ _

theorem gainAvg_nonneg (closes : List ℚ) (period i : ℕ) :
    0 ≤ gainAvg closes period i := by
  unfold gainAvg
  apply div_nonneg _ (by positivity)
  apply List.sum_nonneg
  intro x hx
  obtain ⟨j, _, rfl⟩ := List.mem_map.mp hx
  exact gainAt_nonneg _ _

theorem lossAvg_nonneg (closes : List ℚ) (period i : ℕ) :
    0 ≤ lossAvg closes period i := by
  unfold lossAvg
  apply div_nonneg _ (by positivity)
  apply List.sum_nonneg
  intro x hx
  obtain ⟨j, _, rfl⟩ := List.mem_map.mp hx
  exact lossAt_nonneg _ _

/-- C4 counterexample.  On the flat series `[10, 10]` with period 1
the rolling loss average at the last index is 0, yet the RSI is the
0/0-neutral 50, not the claimed saturation at 100: `rs = 0/0` is `NaN`
and `fillna(50)` applies. -/
theorem rsi_C4_counterexample :
    lossAvg [(10 : ℚ), 10] 1 1 = 0 ∧ rsiAt [(10 : ℚ), 10] 1 1 = 50 ∧
    rsiAt [(10 : ℚ), 10] 1 1 ≠ 100 := by
  norm_num [lossAvg, gainAvg, rsiAt, lossAt, gainAt, List.range']

/-- C4 amended.  `_calculate_rsi` (lines 775-788) always yields values
in [0,100]; indices with an undefined rolling window default to the
neutral 50; a zero loss average with a positive gain average saturates
the RSI at 100, while a zero loss average with a zero gain average
(flat window) gives the NaN-filled neutral 50; on a monotonically
rising series longer than the period the last RSI equals 100. -/
theorem rsi_C4_amended :
    (∀ (closes : List ℚ) (period i : ℕ),
       0 ≤ rsiAt closes period i ∧ rsiAt closes period i ≤ 100) ∧
    (∀ (closes : List ℚ) (period i : ℕ), i + 1 < period →
       rsiAt closes period i = 50) ∧
    (∀ (closes : List ℚ) (period i : ℕ), period ≤ i + 1 →
       lossAvg closes period i = 0 → gainAvg closes period i ≠ 0 →
       rsiAt closes period i = 100) ∧
    (∀ (closes : List ℚ) (period i : ℕ), period ≤ i + 1 →
       lossAvg closes period i = 0 → gainAvg closes period i = 0 →
       rsiAt closes period i = 50) ∧
    (∀ (closes : List ℚ) (period : ℕ), 0 < period → period < closes.length →
       (∀ j, j < closes.length - 1 →
          closes.getD j 0 < closes.getD (j + 1) 0) →
       rsiAt closes period (closes.length - 1) = 100) := by
  refine ⟨?_, ?_, ?_, ?_, ?_⟩
  · intro closes period i
    simp only [rsiAt]
    split_ifs with h1 h2 h3
    · norm_num
    · norm_num
    · norm_num
    · have hg : 0 ≤ gainAvg closes period i := gainAvg_nonneg closes period i
      have hl0 : 0 ≤ lossAvg closes period i := lossAvg_nonneg closes period i
      have hl : 0 < lossAvg closes period i := lt_of_le_of_ne hl0 (Ne.symm h2)
      have hx : 0 ≤ gainAvg closes period i / lossAvg closes period i :=
        div_nonneg hg hl0
      have h1x : (1 : ℚ) ≤ 1 + gainAvg closes period i / lossAvg closes period i := by
        linarith
      have hpos : 0 < (100 : ℚ) / (1 + gainAvg closes period i / lossAvg closes period i) := by
        positivity
      have hle : (100 : ℚ) / (1 + gainAvg closes period i / lossAvg closes period i) ≤ 100 :=
        div_le_self (by norm_num) h1x
      constructor <;> linarith
  · intro closes period i h
    simp only [rsiAt]
    rw [if_pos h]
  · intro closes period i h hl hg
    simp only [rsiAt]
    rw [if_neg (by omega), if_pos hl, if_neg hg]
  · intro closes period i h hl hg
    simp only [rsiAt]
    rw [if_neg (by omega), if_pos hl, if_pos hg]
  · intro closes period hp hlen hmono
    simp only [rsiAt]
    rw [if_neg (by omega)]
    have hl : lossAvg closes period (closes.length - 1) = 0 := by
      unfold lossAvg
      rw [div_eq_zero_iff]
      left
      apply List.sum_eq_zero
      intro x hx
      obtain ⟨j, hj, rfl⟩ := List.mem_map.mp hx
      rw [List.mem_range'_1] at hj
      have hj1 : 1 ≤ j := by omega
      unfold lossAt
      rw [if_neg (by omega)]
      have hmj := hmono (j - 1) (by omega)
      have hj' : j - 1 + 1 = j := by omega
      rw [hj'] at hmj
      have hle : closes.getD (j - 1) 0 - closes.getD j 0 ≤ 0 := by linarith
      exact max_eq_right hle
    have hg : gainAvg closes period (closes.length - 1) ≠ 0 := by
      have hnn : ∀ x ∈ (List.range' (closes.length - 1 + 1 - period) period).map
          (gainAt closes), 0 ≤ x := by
        intro x hx
        obtain ⟨j, _, rfl⟩ := List.mem_map.mp hx
        exact gainAt_nonneg _ _
      have hmem : gainAt closes (closes.length - 1) ∈
          (List.range' (closes.length - 1 + 1 - period) period).map (gainAt closes) :=
        List.mem_map_of_mem _ (by rw [List.mem_range'_1]; omega)
      have hposel : 0 < gainAt closes (closes.length - 1) := by
        unfold gainAt
        rw [if_neg (by omega)]
        have hmj := hmono (closes.length - 1 - 1) (by omega)
        have hj' : closes.length - 1 - 1 + 1 = closes.length - 1 := by omega
        rw [hj'] at hmj
        have hlt : 0 < closes.getD (closes.length - 1) 0 -
            closes.getD (closes.length - 1 - 1) 0 := by linarith
        exact hlt.trans_le (le_max_left _ _)
      have hsum := List.single_le_sum hnn _ hmem
      unfold gainAvg
      apply ne_of_gt
      apply div_pos (by linarith) (by exact_mod_cast hp)
    rw [if_pos hl, if_neg hg]

/-- C4 witness: the amended theorem applied at concrete inputs — a
rising 3-bar series with period 2 yields RSI 100 at the last index,
and an undefined window (period 5, index 1) yields 50. -/
theorem rsi_C4_witness :
    rsiAt [(1 : ℚ), 2, 3] 2 2 = 100 ∧ rsiAt [(1 : ℚ), 2, 3] 5 1 = 50 := by
  constructor
  · have h := rsi_C4_amended.2.2.2.2 [(1 : ℚ), 2, 3] 2 (by norm_num) (by norm_num)
      (by decide)
    simpa using h
  · exact rsi_C4_amended.2.1 [(1 : ℚ), 2, 3] 5 1 (by norm_num)

/-- C10.  Whenever `analyze_stock_volume` returns a result, its
`volume_sma` is a defined non-zero number and `volume_ratio` is the
well-defined quotient `current_volume / volume_sma`; a NaN latest
volume, a NaN volume SMA or a zero volume SMA makes the function
return `None` instead (the guard at lines 660-662). -/
theorem volume_C10 :
    ∀ (symbol : String) (data? : Option (List RawBar)) (p : VolumeParams) (now : ℕ),
      (∀ r, analyzeStockVolumeCore symbol data? p now = some r →
         r.volumeSma ≠ 0 ∧ r.volumeRatio = r.currentVolume / r.volumeSma) ∧
      (∀ data, data? = some data →
         ((data.map RawBar.volume).getLastD none = none ∨
          optMean (lastN p.smaPeriod (data.map RawBar.volume)) = none ∨
          optMean (lastN p.smaPeriod (data.map RawBar.volume)) = some 0) →
         analyzeStockVolumeCore symbol data? p now = none) := by
  intro symbol data? p now
  constructor
  · intro r hr
    cases data? with
    | none => exact absurd hr (by simp [analyzeStockVolumeCore])
    | some data =>
      simp only [analyzeStockVolumeCore] at hr
      by_cases hlen : data.length < p.smaPeriod
      · rw [if_pos hlen] at hr
        exact absurd hr (by simp)
      · rw [if_neg hlen] at hr
        rcases hcv : (data.map RawBar.volume).getLastD none with _ | cv
        · rw [hcv] at hr
          exact absurd hr (by simp)
        · rcases hsma : optMean (lastN p.smaPeriod (data.map RawBar.volume)) with _ | sma
          · rw [hcv, hsma] at hr
            exact absurd hr (by simp)
          · rw [hcv, hsma] at hr
            dsimp only at hr
            by_cases hz : sma = 0
            · rw [if_pos hz] at hr
              exact absurd hr (by simp)
            · rw [if_neg hz] at hr
              obtain rfl := Option.some.inj hr
              exact ⟨hz, rfl⟩
  · intro data hdata hbad
    subst hdata
    simp only [analyzeStockVolumeCore]
    by_cases hlen : data.length < p.smaPeriod
    · rw [if_pos hlen]
    · rw [if_neg hlen]
      rcases hcv : (data.map RawBar.volume).getLastD none with _ | cv
      · rfl
      · rcases hbad with h | h | h
        · rw [hcv] at h
          exact absurd h (by simp)
        · rw [h]
        · rw [h]
          dsimp only
          rw [if_pos rfl]

/-- C10 witness: the guard applied at concrete inputs — a NaN latest
volume yields `None`, and a returned result divides by its non-zero
SMA. -/
theorem volume_C10_witness :
    analyzeStockVolumeCore "A" (some [⟨10, none⟩]) ⟨1, 3⟩ 0 = none := by
  exact (volume_C10 "A" (some [⟨10, none⟩]) ⟨1, 3⟩ 0).2 [⟨10, none⟩] rfl
    (Or.inl rfl)

/-- C7 counterexample.  The result dict contains
`last_update = datetime.now()`, so two runs of the same scanner on the
identical series and parameters (here at clock values 0 and 1) are not
bit-identical. -/
theorem scanner_C7_counterexample :
    analyzeStockVolumeCore "A" (some [⟨10, some 5⟩]) ⟨1, 3⟩ 0 ≠
      analyzeStockVolumeCore "A" (some [⟨10, some 5⟩]) ⟨1, 3⟩ 1 := by
  norm_num [analyzeStockVolumeCore, optMean, optSum, lastN, calculateTrend, pyLe]

/-- C7 amended.  Every field of the result other than the
`last_update` wall-clock stamp is a deterministic function of the
series and the parameters: stripping the timestamp, two runs at any
two clock values agree exactly. -/
theorem scanner_C7_amended :
    ∀ (symbol : String) (data? : Option (List RawBar)) (p : VolumeParams)
      (t1 t2 : ℕ),
      (analyzeStockVolumeCore symbol data? p t1).map VolumeResult.stripTime =
        (analyzeStockVolumeCore symbol data? p t2).map VolumeResult.stripTime := by
  intro symbol data? p t1 t2
  cases data? with
  | none => rfl
  | some data =>
    simp only [analyzeStockVolumeCore]
    by_cases hlen : data.length < p.smaPeriod
    · rw [if_pos hlen, if_pos hlen]
    · rw [if_neg hlen, if_neg hlen]
      rcases (data.map RawBar.volume).getLastD none with _ | cv
      · rfl
      · rcases optMean (lastN p.smaPeriod (data.map RawBar.volume)) with _ | sma
        · rfl
        · dsimp only
          by_cases hz : sma = 0 <;>
            simp [hz, VolumeResult.stripTime]

/-! ## C8 concrete inputs -/

/-- A `ticker.info` snapshot missing both P/E keys (everything else
present and healthy). -/
def infoMissingPE : YfInfo :=
  { trailingPE := none, forwardPE := none, priceToBook := some (3 / 2),
    marketCap := some 1000, returnOnEquity := some (1 / 5),
    debtToEquity := some 1, revenueGrowth := some (1 / 10),
    profitMargins := some (1 / 10), dividendYield := some (1 / 50) }

/-- A `ticker.info` snapshot carrying only a valid P/E and P/B; every
other ratio key is missing. -/
def infoOnlyPEPB : YfInfo :=
  { trailingPE := some 10, forwardPE := none, priceToBook := some (3 / 2),
    marketCap := none, returnOnEquity := none, debtToEquity := none,
    revenueGrowth := none, profitMargins := none, dividendYield := none }

/-- A 50-bar price history (enough for `analyze_single_stock`'s
length-50 guard). -/
def hist50 : List RawBar := List.replicate 50 ⟨10, some 1⟩

/-- C8 counterexample.  A symbol whose `ticker.info` is missing both
P/E keys is dropped: `get_fundamental_data` returns `None`
("hisse atlanıyor", lines 1488-1490) and `analyze_single_stock`
therefore returns `None` (lines 1657-1660) — a missing field does
cause the symbol to be dropped from scoring. -/
theorem fundamentals_C8_counterexample :
    getFundamentalData "A" (some [⟨10, some 1⟩]) (some infoMissingPE) = none ∧
    analyzeSingleStockOpt {} "A" (some hist50) (some infoMissingPE)
      ⟨none, none, none, none, none, none⟩ emptyTech = none := by
  constructor
  · rfl
  · rfl

/-- C8 amended.  Missing non-P/E/P/B fields default to 0 without a
crash: `roe`, `profit_margin`, `revenue_growth`, `debt_equity_ratio`
and `dividend_yield` become 0 and the symbol stays in scoring; a zero
ROE or margin awards 0 points, but the zero debt/equity default awards
the full 2 points (0 < `debt_excellent`); a missing or out-of-range
P/E or P/B (or a failed info fetch) instead drops the symbol. -/
theorem fundamentals_C8_amended :
    getFundamentalData "A" (some [⟨10, some 1⟩]) (some infoOnlyPEPB) =
      some { symbol := "A", currentPrice := 10, peRatio := 10,
             pbRatio := 3 / 2, marketCapEst := 10000000, roe := 0,
             debtEquityRatio := 0, revenueGrowth := 0, profitMargin := 0,
             dividendYield := 0 } ∧
    roePts {} (some 0) = 0 ∧
    npmPts {} (some 0) = 0 ∧
    dePts {} (some 0) = 2 ∧
    (analyzeSingleStockOpt {} "A" (some hist50) (some infoOnlyPEPB)
        ⟨none, none, none, none, none, none⟩ emptyTech).isSome = true := by
  have hne : hist50 ≠ [] := by simp [hist50]
  have hfd : getFundamentalData "A" (some hist50) (some infoOnlyPEPB) =
      some { symbol := "A",
             currentPrice := (hist50.map RawBar.close).getLastD 0,
             peRatio := 10, pbRatio := 3 / 2,
             marketCapEst := (hist50.map RawBar.close).getLastD 0 * 1000000,
             roe := 0, debtEquityRatio := 0, revenueGrowth := 0,
             profitMargin := 0, dividendYield := 0 } := by
    unfold getFundamentalData
    dsimp only
    rw [if_neg hne]
    norm_num [pyOr, infoOnlyPEPB]
  refine ⟨?_, ?_, ?_, ?_, ?_⟩
  · norm_num [getFundamentalData, pyOr, infoOnlyPEPB]
  · norm_num [roePts, pctScale]
  · norm_num [npmPts, pctScale]
  · norm_num [dePts]
  · simp only [analyzeSingleStockOpt]
    rw [hfd]
    dsimp only
    rw [if_neg (by simp [hist50])]
    rfl

/-! ## C9 supporting lemma and concrete inputs -/

theorem length_filterMap_eq_countP (f : α → Option β) (l : List α) :
    (l.filterMap f).length = l.countP (fun a => (f a).isSome) := by
  induction l with
  | nil => rfl
  | cons a t ih =>
      cases h : f a <;> simp [List.filterMap_cons, h, List.countP_cons, ih]

/-- A fetch in which symbols S3, S6 and S9 raise a provider failure
and every other symbol yields one bar of volume 5. -/
def fetchC9 (s : String) : Except Unit (Option (List RawBar)) :=
  if s = "S3" ∨ s = "S6" ∨ s = "S9" then Except.error ()
  else Except.ok (some [⟨10, some 5⟩])

/-- The per-symbol result every succeeding symbol of `fetchC9`
produces. -/
def mkRes (s : String) : VolumeResult :=
  { symbol := s, currentVolume := 5, volumeSma := 5, currentPrice := 10,
    volumeTrend := "Yetersiz Veri", volumeRatio := 1,
    volumeProgressionCheck := false, dataPoints := 1, lastUpdate := 0 }

/-- C9.  `batch_analyze` is a total function of its inputs (no
exception escapes the per-symbol `try/except`): its result holds
exactly the per-symbol successes meeting the threshold, its length
counts them, a symbol whose fetch raises contributes nothing, and in
the concrete 10-symbol batch in which 3 symbols raise a provider
failure the batch returns the 7 remaining results. -/
theorem batch_C9 :
    (∀ (symbols : List String)
       (fetch : String → Except Unit (Option (List RawBar)))
       (p : VolumeParams) (minRatio : ℚ) (now : ℕ),
       (∀ r, r ∈ batchAnalyze symbols fetch p minRatio now ↔
          ∃ s ∈ symbols, batchStep fetch p minRatio now s = some r) ∧
       (batchAnalyze symbols fetch p minRatio now).length =
         symbols.countP (fun s => (batchStep fetch p minRatio now s).isSome) ∧
       (∀ s, fetch s = Except.error () →
          batchStep fetch p minRatio now s = none)) ∧
    batchAnalyze ["S1", "S2", "S3", "S4", "S5", "S6", "S7", "S8", "S9", "S10"]
        fetchC9 ⟨1, 3⟩ 1 0 =
      [mkRes "S1", mkRes "S2", mkRes "S4", mkRes "S5", mkRes "S7",
       mkRes "S8", mkRes "S10"] := by
  constructor
  · intro symbols fetch p minRatio now
    refine ⟨?_, ?_, ?_⟩
    · intro r
      simp [batchAnalyze]
    · simp only [batchAnalyze, List.length_mergeSort]
      exact length_filterMap_eq_countP _ _
    · intro s h
      unfold batchStep
      rw [h]
  · have hgood : ∀ s : String, ¬(s = "S3" ∨ s = "S6" ∨ s = "S9") →
        batchStep fetchC9 ⟨1, 3⟩ 1 0 s = some (mkRes s) := by
      intro s hs
      unfold batchStep fetchC9
      rw [if_neg hs]
      norm_num [analyzeStockVolumeCore, optMean, optSum, lastN, calculateTrend,
        pyLe, mkRes]
    have hbad : ∀ s : String, (s = "S3" ∨ s = "S6" ∨ s = "S9") →
        batchStep fetchC9 ⟨1, 3⟩ 1 0 s = none := by
      intro s hs
      unfold batchStep fetchC9
      rw [if_pos hs]
    unfold batchAnalyze
    rw [List.filterMap_cons, List.filterMap_cons, List.filterMap_cons,
      List.filterMap_cons, List.filterMap_cons, List.filterMap_cons,
      List.filterMap_cons, List.filterMap_cons, List.filterMap_cons,
      List.filterMap_cons, List.filterMap_nil]
    rw [hgood "S1" (by decide), hgood "S2" (by decide), hbad "S3" (by decide),
      hgood "S4" (by decide), hgood "S5" (by decide), hbad "S6" (by decide),
      hgood "S7" (by decide), hgood "S8" (by decide), hbad "S9" (by decide),
      hgood "S10" (by decide)]
    dsimp only
    apply List.mergeSort_of_sorted
    simp only [List.pairwise_cons, List.Pairwise.nil, List.mem_cons,
      List.not_mem_nil, or_false, mkRes]
    norm_num

/-- C9 witness: the failure clause of the batch theorem applied at the
concrete failing symbol S3. -/
theorem batch_C9_witness :
    batchStep fetchC9 ⟨1, 3⟩ 1 0 "S3" = none :=
  (batch_C9.1 ["S3"] fetchC9 ⟨1, 3⟩ 1 0).2.2 "S3" rfl

end BIST
